import Mathlib

/-!
Verification of the mudtelnet / aiomudtelnet Telnet protocol engine.

Bytes are modelled as `List Nat` (each element a byte value, 0..255).
The definitions below are shallow embeddings of the Python source:
  * `scanUntilIac`, `scanUntilIacSe`, `parse_telnet`, `serialize`
    from `mudtelnet/parser.py`;
  * the engine and option-handler logic from `aiomudtelnet/__init__.py`
    and `aiomudtelnet/options.py`.
-/

namespace Mudtelnet

/-- Telnet frame variants, mirroring TelnetData, TelnetCommand,
TelnetNegotiate and TelnetSubNegotiate from `mudtelnet/parser.py`. -/
inductive TelnetFrame
  | data (d : List Nat)
  | command (c : Nat)
  | negotiate (cmd opt : Nat)
  | subnegotiate (opt : Nat) (d : List Nat)
deriving DecidableEq, Repr

/-- Serialization of a frame to wire bytes, mirroring the `__bytes__`
methods of the four frame classes in `mudtelnet/parser.py`.
IAC = 255, SB = 250, SE = 240. Note that `TelnetSubNegotiate.__bytes__`
splices `self.data` in unescaped. -/
def serialize : TelnetFrame → List Nat
  | .data d => d
  | .command c => [255, c]
  | .negotiate cmd opt => [255, cmd, opt]
  | .subnegotiate opt d => 255 :: 250 :: opt :: (d ++ [255, 240])

/-- Embeds `_scan_until_iac` from `mudtelnet/parser.py`: index of the
first IAC (255) byte, or the length of the input when there is none. -/
def scanUntilIac : List Nat → Nat
  | [] => 0
  | b :: rest => if b = 255 then 0 else scanUntilIac rest + 1

/-- Embeds `_scan_until_iac_se` from `mudtelnet/parser.py`. The Python
loop walks an index i while i < len-1: on IAC SE it returns i+2, on
IAC IAC it skips both bytes, otherwise it advances one byte; it returns
-1 (here `none`) when no unescaped IAC SE is found. -/
def scanUntilIacSe : List Nat → Option Nat
  | a :: b :: rest =>
    if a = 255 then
      if b = 240 then some 2
      else if b = 255 then (scanUntilIacSe rest).map (· + 2)
      else (scanUntilIacSe (b :: rest)).map (· + 1)
    else (scanUntilIacSe (b :: rest)).map (· + 1)
  | _ => none

/-- Embeds `parse_telnet` from `mudtelnet/parser.py`. Returns the number
of bytes to consume and an optional frame. The Python length guards
(`len(data) < 1/2/3`) appear here as the shapes of the list patterns.
In the subnegotiation branch the payload is the raw slice
`data[3 : length - 2]`, exactly as in the source. -/
def parse_telnet : List Nat → Nat × Option TelnetFrame
  | [] => (0, none)
  | b0 :: rest =>
    if b0 = 255 then
      match rest with
      | [] => (0, none)
      | b1 :: rest1 =>
        if b1 = 255 then (2, some (TelnetFrame.data [b0]))
        else if b1 = 251 ∨ b1 = 252 ∨ b1 = 253 ∨ b1 = 254 then
          match rest1 with
          | [] => (0, none)
          | b2 :: _ => (3, some (TelnetFrame.negotiate b1 b2))
        else if b1 = 250 then
          match scanUntilIacSe (b0 :: b1 :: rest1) with
          | none => (0, none)
          | some len =>
            if len < 5 then (0, none)
            else (len, some (TelnetFrame.subnegotiate (rest1.headD 0)
                (((b0 :: b1 :: rest1).take (len - 2)).drop 3)))
        else (2, some (TelnetFrame.command b1))
    else
      (scanUntilIac (b0 :: rest),
        some (TelnetFrame.data ((b0 :: rest).take (scanUntilIac (b0 :: rest)))))

/-- Applies a chain of byte transformers in order, mirroring the loop
`for op in self._in_transformers: in_data = await op.transform_incoming_data(in_data)`
in `MudTelnetProtocol.receive_data` (aiomudtelnet/__init__.py). -/
def applyChain (ts : List (List Nat → List Nat)) (d : List Nat) : List Nat :=
  ts.foldl (fun acc f => f acc) d

/-- The ingestion step of `MudTelnetProtocol.receive_data`
(aiomudtelnet/__init__.py lines 137-143): `in_data` is computed by the
transformer chain, but the source then executes
`self._tn_in_buffer.extend(data)`, appending the raw `data` argument,
so `appended` is `data`, not `transformed`. -/
structure ReceiveIngest where
  transformed : List Nat
  appended : List Nat
deriving DecidableEq, Repr

/-- Shallow embedding of the beginning of `receive_data`: the bytes the
transformer chain produced, and the bytes actually appended to
`_tn_in_buffer` (the raw input, per the source). -/
def receive_data_ingest (ts : List (List Nat → List Nat)) (data : List Nat) :
    ReceiveIngest :=
  { transformed := applyChain ts data, appended := data }

/-- The dispatch loop of `MudTelnetProtocol.receive_data`
(aiomudtelnet/__init__.py lines 145-157), with an explicit fuel
parameter: each iteration parses the buffer and, when a frame was
produced, executes `del self._tn_in_buffer[consumed:]`, which keeps the
first `consumed` bytes (`List.take consumed`) and discards the rest.
When the parser yields no frame the loop stops and the length of the
buffer is returned. `none` means the fuel ran out before the loop
stopped. Handlers dispatched inside the loop never mutate
`_tn_in_buffer` (the MCCP3 handler writes to an attribute named
`_tn_read_buffer`), so the buffer alone is the loop state. -/
def receiveLoop : Nat → List Nat → Option Nat
  | 0, _ => none
  | fuel + 1, buf =>
    match parse_telnet buf with
    | (_, none) => some buf.length
    | (consumed, some _) => receiveLoop fuel (buf.take consumed)

/-- Full `MudTelnetProtocol.receive_data` over our model: ingest the
incoming bytes (the raw `data` is what gets appended to the inbound
buffer), then run the dispatch loop with the given fuel. -/
def receive_data (ts : List (List Nat → List Nat)) (fuel : Nat)
    (buf data : List Nat) : Option Nat :=
  receiveLoop fuel (buf ++ (receive_data_ingest ts data).appended)

/-- Per-side negotiation state, mirroring `TelnetOptionState` in
aiomudtelnet/options.py. -/
structure SideState where
  enabled : Bool
  negotiating : Bool
deriving DecidableEq, Repr

/-- The two sides of an option, mirroring `TelnetOptionPerspective`
(`local` and `remote`) in aiomudtelnet/options.py. -/
structure OptionPerspective where
  locSide : SideState
  remSide : SideState
deriving DecidableEq, Repr

/-- Class-level flags of a `TelnetOption` handler
(aiomudtelnet/options.py). -/
structure OptionConfig where
  code : Nat
  support_local : Bool
  support_remote : Bool
deriving DecidableEq, Repr

/-- Handler hook invocations observable from `at_receive_negotiate`. -/
inductive OptEvent
  | remoteEnable | remoteDisable | remoteReject
  | localEnable | localDisable | localReject
deriving DecidableEq, Repr

/-- Embeds `TelnetOption.at_receive_negotiate` (aiomudtelnet/options.py
lines 54-93). Returns the updated perspective, the negotiate frames
put on the outbound queue by `send_negotiate`, and the hook events
fired, in order. Verbs: WILL=251, WONT=252, DO=253, DONT=254. In the
DO branch with `support_local` false the source executes
`await self.send_negotiate(TelnetCode.DONT)`, so a DONT (254) frame is
sent there. -/
def at_receive_negotiate (cfg : OptionConfig) (st : OptionPerspective)
    (command : Nat) : OptionPerspective × List TelnetFrame × List OptEvent :=
  if command = 251 then
    if cfg.support_remote then
      if st.remSide.enabled then (st, [], [])
      else
        ({ st with remSide := { st.remSide with enabled := true } },
         if st.remSide.negotiating then [] else [TelnetFrame.negotiate 253 cfg.code],
         [OptEvent.remoteEnable])
    else (st, [TelnetFrame.negotiate 254 cfg.code], [])
  else if command = 253 then
    if cfg.support_local then
      if st.locSide.enabled then (st, [], [])
      else
        ({ st with locSide := { st.locSide with enabled := true } },
         if st.locSide.negotiating then [] else [TelnetFrame.negotiate 251 cfg.code],
         [OptEvent.localEnable])
    else (st, [TelnetFrame.negotiate 254 cfg.code], [])
  else if command = 252 then
    if cfg.support_remote then
      ({ st with remSide := { enabled := false, negotiating := false } },
       [],
       (if st.remSide.enabled then [OptEvent.remoteDisable] else []) ++
       (if st.remSide.negotiating then [OptEvent.remoteReject] else []))
    else (st, [], [])
  else if command = 254 then
    if cfg.support_local then
      ({ st with locSide := { enabled := false, negotiating := false } },
       [],
       (if st.locSide.enabled then [OptEvent.localDisable] else []) ++
       (if st.locSide.negotiating then [OptEvent.localReject] else []))
    else (st, [], [])
  else (st, [], [])

/-- Association lookup over the handler table `_tn_options`. -/
def lookupOption (x : Nat) :
    List (Nat × OptionConfig × OptionPerspective) →
    Option (OptionConfig × OptionPerspective)
  | [] => none
  | (k, v) :: rest => if k = x then some v else lookupOption x rest

/-- Embeds `MudTelnetProtocol._tn_handle_negotiate`
(aiomudtelnet/__init__.py lines 204-216), returning the frames put on
the outbound queue: a registered handler is delegated to, otherwise
WILL (251) is answered with DONT (254), DO (253) with WONT (252), and
WONT/DONT with nothing. -/
def tn_handle_negotiate (opts : List (Nat × OptionConfig × OptionPerspective))
    (command opt : Nat) : List TelnetFrame :=
  match lookupOption opt opts with
  | some (cfg, st) => (at_receive_negotiate cfg st command).2.1
  | none =>
    if command = 251 then [TelnetFrame.negotiate 254 opt]
    else if command = 253 then [TelnetFrame.negotiate 252 opt]
    else []

/-- The protocol-state fields touched by `MCCP3Option.at_receive_subnegotiate`
(aiomudtelnet/options.py lines 425-438): the parser's inbound buffer
`_tn_in_buffer`, the attribute `_tn_read_buffer` the handler assigns to
(`MudTelnetProtocol` has no `__slots__`, so the assignment creates a new
attribute; nothing else reads it — we start it empty), the number of
installed inbound transformers, the `capabilities.mccp3_enabled` flag
and whether the handler's decompressor is present. -/
structure Mccp3ProtocolState where
  tn_in_buffer : List Nat
  tn_read_buffer : List Nat
  in_transformers : Nat
  mccp3_enabled : Bool
  decompressor : Bool
deriving DecidableEq, Repr

/-- Embeds `MCCP3Option.at_receive_subnegotiate` with the zlib inflater
abstracted as the function `inflate`. When `mccp3_enabled` is still
false the source sets the capability, appends itself to
`_in_transformers`, creates the decompressor, and then assigns the
inflated bytes to `self.protocol._tn_read_buffer`; `_tn_in_buffer`
itself is not written. -/
def mccp3_at_receive_subnegotiate (inflate : List Nat → List Nat)
    (st : Mccp3ProtocolState) : Mccp3ProtocolState :=
  if st.mccp3_enabled then st
  else
    { st with
      mccp3_enabled := true
      in_transformers := st.in_transformers + 1
      decompressor := true
      tn_read_buffer := inflate st.tn_in_buffer }

/-- Is this frame a subnegotiation for option 86 (MCCP2)? This is the
condition under which `output_stream` delivers the dequeued frame to
`MCCP2Option.at_send_subnegotiate` (with MCCP2 registered in
`_tn_options`). -/
def isMccp2Sub : TelnetFrame → Bool
  | .subnegotiate opt _ => opt = 86
  | _ => false

/-- The outbound-side state relevant to MCCP2: the
`capabilities.mccp2_enabled` flag and the compressor context (`none`
while `MCCP2Option.compressor` is `None`, in which case no outbound
transformer is active). In the source the transformer is appended and
the compressor created in the same branch of `at_send_subnegotiate`,
and `transform_outgoing_data` tests `self.compressor`, so one field
represents both. `σ` abstracts the zlib compressor context. -/
structure OutState (σ : Type) where
  mccp2_enabled : Bool
  compressor : Option σ

/-- One iteration of `MudTelnetProtocol.output_stream`
(aiomudtelnet/__init__.py lines 246-257) for a dequeued frame:
first `_tn_encode_outgoing_data` serializes the frame and passes it
through the outbound transformers — with a compressor installed this is
`MCCP2Option.transform_outgoing_data`, modelled by the abstract
`compress` (which stands for `compressor.compress(data) +
compressor.flush(Z_SYNC_FLUSH)`); only afterwards is the handler's
`at_send_subnegotiate` hook invoked, which for MCCP2 (option 86), when
`mccp2_enabled` is still false, enables the capability and installs a
fresh compressor `init`. The produced bytes are what the iteration
yields. -/
def output_step {σ : Type} (compress : σ → List Nat → σ × List Nat) (init : σ)
    (st : OutState σ) (f : TelnetFrame) : OutState σ × List Nat :=
  let enc :=
    match st.compressor with
    | some c =>
      let r := compress c (serialize f)
      ({ st with compressor := some r.1 }, r.2)
    | none => (st, serialize f)
  let st1 := enc.1
  let st2 :=
    if isMccp2Sub f then
      if st1.mccp2_enabled then st1
      else { mccp2_enabled := true, compressor := some init }
    else st1
  (st2, enc.2)

/-- Runs `output_stream` over a queue of frames, collecting the yielded
byte chunks in order. -/
def output_stream_run {σ : Type} (compress : σ → List Nat → σ × List Nat)
    (init : σ) (st : OutState σ) : List TelnetFrame → OutState σ × List (List Nat)
  | [] => (st, [])
  | f :: fs =>
    let r := output_step compress init st f
    let rest := output_stream_run compress init r.1 fs
    (rest.1, r.2 :: rest.2)

/-- The byte chunks yielded by `output_stream` over a queue of frames. -/
def output_stream_outs {σ : Type} (compress : σ → List Nat → σ × List Nat)
    (init : σ) (st : OutState σ) (fs : List TelnetFrame) : List (List Nat) :=
  (output_stream_run compress init st fs).2

/-- The byte chunks produced by serializing each frame through a running
compressor, threading the compressor context: what the output stream
yields once MCCP2 is active. -/
def compressChain {σ : Type} (compress : σ → List Nat → σ × List Nat) :
    σ → List TelnetFrame → List (List Nat)
  | _, [] => []
  | c, f :: fs =>
    let r := compress c (serialize f)
    r.2 :: compressChain compress r.1 fs

/-- The `MTTSOption` fields relevant to its staged probing
(aiomudtelnet/options.py lines 208-244): `number_requests`,
`last_received` (the decoded previous payload, kept as bytes here) and
whether the completion event `negotiation` has been set. -/
structure MttsState where
  number_requests : Nat
  last_received : List Nat
  negotiation : Bool
deriving DecidableEq, Repr

/-- Embeds `MTTSOption.at_receive_subnegotiate` (aiomudtelnet/options.py
lines 223-244), abstracting from the capability updates of
`handle_name` / `handle_ttype` / `handle_standard` (which never touch
these three fields). Returns the new state and the number of probes
sent via `request()` (which increments `number_requests` and sends the
SEND subnegotiation). Note that the source never assigns to
`self.last_received` after `__init__`, where it is the empty string. -/
def mtts_at_receive_subnegotiate (st : MttsState) (data : List Nat) :
    MttsState × Nat :=
  match data with
  | [] => (st, 0)
  | b :: payload =>
    if b ≠ 0 then (st, 0)
    else if payload = st.last_received then
      ({ st with negotiation := true }, 0)
    else
      match st.number_requests with
      | 1 => ({ st with number_requests := st.number_requests + 1 }, 1)
      | 2 => ({ st with number_requests := st.number_requests + 1 }, 1)
      | 3 => ({ st with negotiation := true }, 0)
      | _ => (st, 0)

/-- Feeds a sequence of IS subnegotiation payloads to the MTTS handler,
accumulating the total number of probes sent. -/
def mtts_run (st : MttsState) : List (List Nat) → MttsState × Nat
  | [] => (st, 0)
  | d :: ds =>
    let r := mtts_at_receive_subnegotiate st d
    let rest := mtts_run r.1 ds
    (rest.1, r.2 + rest.2)

/-- The state of `MTTSOption` right after `at_remote_enable` issued the
first probe: one request sent, `last_received` empty, completion unset. -/
def mttsAfterFirstProbe : MttsState :=
  { number_requests := 1, last_received := [], negotiation := false }

/-- The declared fields of the `MudClientCapabilities` dataclass
(aiomudtelnet/__init__.py lines 15-47). The dataclass is declared with
`slots=True`, so these are exactly the attribute names `setattr` can
assign. -/
def capabilityFields : List String :=
  ["client_name", "client_version", "encoding", "color", "width", "height",
   "mccp2", "mccp2_enabled", "mccp3", "mccp3_enabled", "gmcp", "msdp",
   "mssp", "mslp", "mtts", "naws", "sga", "linemode", "force_endline",
   "screen_reader", "mouse_tracking", "vt100", "osc_color_palette",
   "proxy", "mnes", "tls_support"]

/-- A capability value: the payloads handed to `change_capabilities`. -/
inductive CapValue
  | b (v : Bool)
  | s (v : String)
  | n (v : Nat)
deriving DecidableEq, Repr

/-- Embeds `MudTelnetProtocol.change_capabilities`
(aiomudtelnet/__init__.py lines 159-164): iterate the changes and
`setattr` each key on the slots-based capabilities record. On a
`slots=True` dataclass, `setattr` with a name that is not a declared
field raises `AttributeError`; we model that as `Except.error` carrying
the offending key, keys being processed in order. -/
def change_capabilities : List (String × CapValue) → Except String Unit
  | [] => .ok ()
  | (k, _) :: rest =>
    if capabilityFields.contains k then change_capabilities rest
    else .error k

/-- The `MTTS` bit table of `MTTSOption` (aiomudtelnet/options.py lines
193-206), in source order. -/
def MTTS_TABLE : List (Nat × String) :=
  [(2048, "encryption"), (1024, "mslp"), (512, "mnes"), (256, "truecolor"),
   (128, "proxy"), (64, "screenreader"), (32, "osc_color_palette"),
   (16, "mouse_tracking"), (8, "xterm256"), (4, "utf8"), (2, "vt100"),
   (1, "ansi")]

/-- The set comprehension in `handle_standard`:
`{capability for bitval, capability in self.MTTS if number & bitval > 0}`.
Python set iteration order is unspecified; we keep table order, which
only matters up to membership. -/
def mtts_supported (number : Nat) : List String :=
  (MTTS_TABLE.filter (fun p => 0 < number &&& p.1)).map Prod.snd

/-- One pass of the `for c in supported` loop body of `handle_standard`
(aiomudtelnet/options.py lines 336-356), threading the `out` dictionary
(as an insertion-ordered association list) and `max_color`. -/
def mtts_apply (acc : List (String × CapValue) × Nat) (c : String) :
    List (String × CapValue) × Nat :=
  if c = "encryption" ∨ c = "mslp" ∨ c = "mnes" ∨ c = "proxy" ∨ c = "vt100" ∨
      c = "screenreader" ∨ c = "osc_color_palette" ∨ c = "mouse_tracking" then
    (acc.1 ++ [(c, CapValue.b true)], acc.2)
  else if c = "truecolor" then (acc.1, max 3 acc.2)
  else if c = "xterm256" then (acc.1, max 2 acc.2)
  else if c = "ansi" then (acc.1, max 1 acc.2)
  else if c = "utf8" then (acc.1 ++ [("encoding", CapValue.s "utf-8")], acc.2)
  else acc

/-- Parses a nonempty all-digit character sequence as a decimal number,
the case of Python's `int(...)` exercised by MTTS replies; anything
else is `none` (Python raises `ValueError`, on which `handle_standard`
returns without changes). -/
def parseDecimal : List Char → Option Nat
  | [] => none
  | cs =>
    cs.foldl
      (fun acc c =>
        match acc with
        | none => none
        | some n =>
          if 48 ≤ c.toNat ∧ c.toNat ≤ 57 then some (n * 10 + (c.toNat - 48))
          else none)
      (some 0)

/-- Embeds `MTTSOption.handle_standard` (aiomudtelnet/options.py lines
318-361) as a function from the reply's text payload and the current
`capabilities.color` to the `changes` dictionary passed to
`change_capabilities`. The source requires the payload to start with
`"MTTS "` and parses everything after the first space with `int(...)`;
malformed payloads contribute no changes, matching the source's early
returns. -/
def handle_standard (payload : String) (color : Nat) :
    List (String × CapValue) :=
  if payload.toList.take 5 = "MTTS ".toList then
    match parseDecimal (payload.toList.drop 5) with
    | some number =>
      let acc := (mtts_supported number).foldl mtts_apply ([], color)
      if acc.2 ≠ color then acc.1 ++ [("color", CapValue.n acc.2)] else acc.1
    | none => []
  else []

/-- Collapses each IAC-IAC (255 255) pair in a subnegotiation wire
payload to a single 0xFF byte. Modelled from the spec: this is the
`unescape` the specification says `parse` applies to
`buffer[3..end]`; no such step exists in `parse_telnet` itself. -/
def spec_unescape : List Nat → List Nat
  | [] => []
  | 255 :: 255 :: rest => 255 :: spec_unescape rest
  | b :: rest => b :: spec_unescape rest

/-- Escapes a payload for the wire by doubling each 0xFF byte, producing
exactly the well-escaped wire payloads in which every IAC belongs to an
IAC-IAC pair. -/
def escape255 : List Nat → List Nat
  | [] => []
  | b :: rest =>
    if b = 255 then 255 :: 255 :: escape255 rest else b :: escape255 rest

/-- The frames whose serialization parses back to themselves: nonempty
IAC-free data runs, commands distinct from the bytes the parser treats
specially, negotiations with a genuine negotiation verb, and
subnegotiations whose option byte is not IAC and whose payload is
IAC-free. -/
def goodFrame : TelnetFrame → Prop
  | .data d => d ≠ [] ∧ 255 ∉ d
  | .command c => c ≠ 255 ∧ c ≠ 251 ∧ c ≠ 252 ∧ c ≠ 253 ∧ c ≠ 254 ∧ c ≠ 250
  | .negotiate cmd _ => cmd = 251 ∨ cmd = 252 ∨ cmd = 253 ∨ cmd = 254
  | .subnegotiate opt d => opt ≠ 255 ∧ 255 ∉ d

theorem take_length_append (e X : List Nat) : (e ++ X).take e.length = e := by
  induction e with
  | nil => simp
  | cons a e ih => simp [ih]

theorem escape255_of_not_mem (d : List Nat) (h : 255 ∉ d) : escape255 d = d := by
  induction d with
  | nil => rfl
  | cons b d ih =>
    simp only [List.mem_cons, not_or] at h
    simp [escape255, Ne.symm h.1, ih h.2]

theorem scanUntilIac_of_not_mem (d : List Nat) (h : 255 ∉ d) :
    scanUntilIac d = d.length := by
  induction d with
  | nil => rfl
  | cons b d ih =>
    simp only [List.mem_cons, not_or] at h
    simp [scanUntilIac, Ne.symm h.1, ih h.2]

theorem scanUntilIacSe_escape (q t : List Nat) :
    scanUntilIacSe (escape255 q ++ ([255, 240] ++ t)) =
      some ((escape255 q).length + 2) := by
  induction q with
  | nil => simp [escape255, scanUntilIacSe]
  | cons b q ih =>
    by_cases hb : b = 255
    · subst hb
      simp [escape255, scanUntilIacSe]
      exact ih
    · have hne : escape255 (b :: q) = b :: escape255 q := by
        simp [escape255, hb]
      rw [hne]
      cases hE : escape255 q ++ ([255, 240] ++ t) with
      | nil => simp at hE
      | cons c cs =>
        rw [List.cons_append, hE]
        rw [hE] at ih
        simp [scanUntilIacSe, hb, ih]

theorem scanUntilIacSe_cons3 (opt : Nat) (h : opt ≠ 255) (M : List Nat) :
    scanUntilIacSe (255 :: 250 :: opt :: M) =
      (scanUntilIacSe M).map (· + 3) := by
  cases M with
  | nil => simp [scanUntilIacSe]
  | cons m ms =>
    cases hv : scanUntilIacSe (m :: ms) with
    | none => simp [scanUntilIacSe, h, hv]
    | some v => simp [scanUntilIacSe, h, hv]

/-- Shared reduction of `parse_telnet` on a well-formed subnegotiation
wire image: IAC SB, a non-IAC option byte, a well-escaped payload,
IAC SE, and arbitrary trailing bytes. The payload comes back as the raw
wire slice. -/
theorem parse_telnet_subnegotiate (opt : Nat) (q t : List Nat) (h : opt ≠ 255) :
    parse_telnet (255 :: 250 :: opt :: (escape255 q ++ ([255, 240] ++ t))) =
      ((escape255 q).length + 5,
        some (TelnetFrame.subnegotiate opt (escape255 q))) := by
  have hscan : scanUntilIacSe
      (255 :: 250 :: opt :: (escape255 q ++ ([255, 240] ++ t))) =
      some ((escape255 q).length + 5) := by
    rw [scanUntilIacSe_cons3 opt h, scanUntilIacSe_escape]
    simp
  simp only [parse_telnet, hscan]
  norm_num
  have h3 : (escape255 q).length + 5 - 2 = (escape255 q).length + 3 := by omega
  rw [h3]
  have htake : (255 :: 250 :: opt :: (escape255 q ++ 255 :: 240 :: t)).take
      ((escape255 q).length + 3) = 255 :: 250 :: opt :: escape255 q := by
    have h4 : (escape255 q).length + 3 = (escape255 q).length + 1 + 1 + 1 := by omega
    rw [h4]
    simp only [List.take_succ_cons]
    rw [take_length_append (escape255 q) (255 :: 240 :: t)]
  rw [htake]
  rfl

/-- Claim C1: the claim says the dispatch loop of `receive_data` removes
exactly the consumed bytes from the front of the inbound buffer and
terminates, returning the residual buffer size. The source instead
executes `del self._tn_in_buffer[consumed:]`, keeping the consumed
front, so on the one-byte input 0x41 the parser yields the same Data
frame forever: with any amount of fuel the loop never reaches the
`(0, none)` exit. -/
theorem C1_receive_data_diverges :
    parse_telnet [65] = (1, some (TelnetFrame.data [65])) ∧
    ∀ fuel, receive_data [] fuel [] [65] = none := by
  refine ⟨rfl, ?_⟩
  intro fuel
  induction fuel with
  | zero => rfl
  | succ n ih => exact ih

/-- Claim C2 counterexample: on the wire bytes IAC SB 86 IAC IAC IAC SE
the parser returns the raw payload [255, 255]; the claim says the
IAC IAC run is collapsed to a single 0xFF, i.e. the payload would be
`spec_unescape [255, 255] = [255]`. -/
theorem C2_counterexample :
    (parse_telnet [255, 250, 86, 255, 255, 255, 240]).2 ≠
      some (TelnetFrame.subnegotiate 86 (spec_unescape [255, 255])) := by
  decide

/-- Claim C2 (amended): for every buffer beginning IAC SB with a
non-IAC option byte, followed by a well-escaped wire payload (every
0xFF doubled), IAC SE, and any trailing bytes, `parse_telnet` returns
the subnegotiation frame with the consumed count covering through the
IAC SE — and the returned payload is the raw wire payload with its
IAC IAC escapes left intact, not collapsed. -/
theorem C2_subnegotiate_parse (opt : Nat) (q t : List Nat) (h : opt ≠ 255) :
    parse_telnet (255 :: 250 :: opt :: (escape255 q ++ ([255, 240] ++ t))) =
      ((escape255 q).length + 5,
        some (TelnetFrame.subnegotiate opt (escape255 q))) :=
  parse_telnet_subnegotiate opt q t h

theorem C2_subnegotiate_parse_witness :
    parse_telnet (255 :: 250 :: 86 :: (escape255 [255] ++ ([255, 240] ++ []))) =
      ((escape255 [255]).length + 5,
        some (TelnetFrame.subnegotiate 86 (escape255 [255]))) :=
  C2_subnegotiate_parse 86 [255] [] (by decide)

/-- Claim C3: for an option code with no registered handler,
`_tn_handle_negotiate` answers WILL with exactly IAC DONT, DO with
exactly IAC WONT, and WONT / DONT with nothing. -/
theorem C3_polite_refusal (opts : List (Nat × OptionConfig × OptionPerspective))
    (X : Nat) (h : lookupOption X opts = none) :
    tn_handle_negotiate opts 251 X = [TelnetFrame.negotiate 254 X] ∧
    tn_handle_negotiate opts 253 X = [TelnetFrame.negotiate 252 X] ∧
    tn_handle_negotiate opts 252 X = [] ∧
    tn_handle_negotiate opts 254 X = [] := by
  simp [tn_handle_negotiate, h]

theorem C3_polite_refusal_witness :
    tn_handle_negotiate [] 251 91 = [TelnetFrame.negotiate 254 91] ∧
    tn_handle_negotiate [] 253 91 = [TelnetFrame.negotiate 252 91] ∧
    tn_handle_negotiate [] 252 91 = [] ∧
    tn_handle_negotiate [] 254 91 = [] :=
  C3_polite_refusal [] 91 rfl

/-- Claim C4: the claim says a handler with `support_local` false
refuses IAC DO with IAC WONT. The source's DO branch executes
`send_negotiate(TelnetCode.DONT)`, so the handler sends IAC DONT
(254), not IAC WONT (252). -/
theorem C4_do_refusal_sends_dont (cfg : OptionConfig) (st : OptionPerspective)
    (h : cfg.support_local = false) :
    (at_receive_negotiate cfg st 253).2.1 =
      [TelnetFrame.negotiate 254 cfg.code] ∧
    (at_receive_negotiate cfg st 253).2.1 ≠
      [TelnetFrame.negotiate 252 cfg.code] := by
  simp [at_receive_negotiate, h]

theorem C4_do_refusal_sends_dont_witness :
    (at_receive_negotiate ⟨31, false, true⟩
        ⟨⟨false, false⟩, ⟨false, false⟩⟩ 253).2.1 =
      [TelnetFrame.negotiate 254 31] :=
  (C4_do_refusal_sends_dont ⟨31, false, true⟩
    ⟨⟨false, false⟩, ⟨false, false⟩⟩ rfl).1

/-- Claim C5 counterexample: the subnegotiation frame with payload
[255] does not survive a serialize / parse round trip: its wire form
IAC SB 86 255 IAC SE makes the scanner read the payload byte and the
closing IAC as an escape pair, so the parser finds no frame at all. -/
theorem C5_counterexample :
    parse_telnet (serialize (TelnetFrame.subnegotiate 86 [255])) ≠
      ((serialize (TelnetFrame.subnegotiate 86 [255])).length,
        some (TelnetFrame.subnegotiate 86 [255])) := by
  decide

/-- Claim C5 (amended): parsing the serialization of a frame consumes
exactly the serialized length and yields the frame back for every
`goodFrame`: nonempty IAC-free data runs, commands other than the
specially treated bytes, negotiations with a genuine verb, and
subnegotiations with a non-IAC option and IAC-free payload. The round
trip fails for subnegotiation payloads containing 0xFF. -/
theorem C5_roundtrip (f : TelnetFrame) (h : goodFrame f) :
    parse_telnet (serialize f) = ((serialize f).length, some f) := by
  cases f with
  | data d =>
    obtain ⟨h1, h2⟩ := h
    cases d with
    | nil => exact absurd rfl h1
    | cons b rest =>
      simp only [List.mem_cons, not_or] at h2
      have hs : scanUntilIac (b :: rest) = (b :: rest).length :=
        scanUntilIac_of_not_mem _ (by simp [List.mem_cons, not_or]; exact h2)
      simp only [serialize, parse_telnet, if_neg (Ne.symm h2.1), hs,
        List.take_length]
  | command c =>
    obtain ⟨h1, h2, h3, h4, h5, h6⟩ := h
    simp [serialize, parse_telnet, h1, h2, h3, h4, h5, h6]
  | negotiate cmd opt =>
    rcases h with h | h | h | h <;> subst h <;> rfl
  | subnegotiate opt d =>
    obtain ⟨h1, h2⟩ := h
    have he : escape255 d = d := escape255_of_not_mem d h2
    have hp := parse_telnet_subnegotiate opt d [] h1
    rw [he] at hp
    simp only [List.append_nil] at hp
    simp only [serialize]
    rw [hp]
    simp [List.length_append]

theorem C5_roundtrip_witness :
    parse_telnet (serialize (TelnetFrame.subnegotiate 86 [1, 2])) =
      ((serialize (TelnetFrame.subnegotiate 86 [1, 2])).length,
        some (TelnetFrame.subnegotiate 86 [1, 2])) :=
  C5_roundtrip (TelnetFrame.subnegotiate 86 [1, 2]) ⟨by decide, by decide⟩

/-- Claim C6: the claim says the first MCCP3 subnegotiation replaces
the contents of the parser's inbound buffer with the inflated bytes.
The source does set `mccp3_enabled`, install the inbound transformer
and create the decompressor, but assigns the inflated bytes to the
otherwise unused attribute `_tn_read_buffer`; `_tn_in_buffer`, the
buffer the dispatch loop consumes, is left unchanged. -/
theorem C6_mccp3_buffer_not_replaced (inflate : List Nat → List Nat)
    (st : Mccp3ProtocolState) (h : st.mccp3_enabled = false) :
    (mccp3_at_receive_subnegotiate inflate st).mccp3_enabled = true ∧
    (mccp3_at_receive_subnegotiate inflate st).in_transformers =
      st.in_transformers + 1 ∧
    (mccp3_at_receive_subnegotiate inflate st).decompressor = true ∧
    (mccp3_at_receive_subnegotiate inflate st).tn_in_buffer =
      st.tn_in_buffer ∧
    (mccp3_at_receive_subnegotiate inflate st).tn_read_buffer =
      inflate st.tn_in_buffer := by
  simp [mccp3_at_receive_subnegotiate, h]

theorem C6_mccp3_buffer_not_replaced_witness :
    (mccp3_at_receive_subnegotiate (fun l => 9 :: l)
        ⟨[1, 2], [], 0, false, false⟩).mccp3_enabled = true ∧
    (mccp3_at_receive_subnegotiate (fun l => 9 :: l)
        ⟨[1, 2], [], 0, false, false⟩).in_transformers = 1 ∧
    (mccp3_at_receive_subnegotiate (fun l => 9 :: l)
        ⟨[1, 2], [], 0, false, false⟩).decompressor = true ∧
    (mccp3_at_receive_subnegotiate (fun l => 9 :: l)
        ⟨[1, 2], [], 0, false, false⟩).tn_in_buffer = [1, 2] ∧
    (mccp3_at_receive_subnegotiate (fun l => 9 :: l)
        ⟨[1, 2], [], 0, false, false⟩).tn_read_buffer = [9, 1, 2] :=
  C6_mccp3_buffer_not_replaced (fun l => 9 :: l)
    ⟨[1, 2], [], 0, false, false⟩ rfl

/-- Claim C7: the claim says the bytes appended to the inbound buffer
are the received bytes passed through the inbound transformer chain.
The source computes `in_data` through the chain but then executes
`self._tn_in_buffer.extend(data)`: whenever the chain changes the
bytes, what is appended is the raw input, not the transformed bytes. -/
theorem C7_transformed_bytes_discarded (ts : List (List Nat → List Nat))
    (data : List Nat) (h : applyChain ts data ≠ data) :
    (receive_data_ingest ts data).appended = data ∧
    (receive_data_ingest ts data).appended ≠
      (receive_data_ingest ts data).transformed := by
  refine ⟨rfl, ?_⟩
  simp only [receive_data_ingest]
  exact fun hc => h hc.symm

theorem C7_transformed_bytes_discarded_witness :
    (receive_data_ingest [fun l => 0 :: l] [1]).appended = [1] ∧
    (receive_data_ingest [fun l => 0 :: l] [1]).appended ≠
      (receive_data_ingest [fun l => 0 :: l] [1]).transformed :=
  C7_transformed_bytes_discarded [fun l => 0 :: l] [1] (by decide)

theorem output_stream_outs_compressing {σ : Type}
    (compress : σ → List Nat → σ × List Nat) (init : σ) :
    ∀ (fs : List TelnetFrame) (c : σ),
      output_stream_outs compress init ⟨true, some c⟩ fs =
        compressChain compress c fs := by
  intro fs
  induction fs with
  | nil => intro c; rfl
  | cons f fs ih =>
    intro c
    simp only [output_stream_outs, output_stream_run, output_step,
      compressChain]
    by_cases hf : isMccp2Sub f = true
    · simp only [hf, if_true]
      exact congrArg _ (ih _)
    · simp only [eq_false_of_ne_true hf, if_false]
      exact congrArg _ (ih _)

/-- Claim C8: starting with MCCP2 not yet enabled, when the output
stream dequeues the empty MCCP2 subnegotiation after any frames that
are not MCCP2 subnegotiations, the preceding frames and the
subnegotiation itself are yielded as their plain serializations, and
every frame dequeued after it is passed through the compressor (the
abstract `compress` standing for zlib compress plus Z_SYNC_FLUSH)
before being yielded. -/
theorem C8_mccp2_boundary {σ : Type} (compress : σ → List Nat → σ × List Nat)
    (init : σ) (pre post : List TelnetFrame)
    (h : ∀ f ∈ pre, isMccp2Sub f = false) :
    output_stream_outs compress init ⟨false, none⟩
        (pre ++ TelnetFrame.subnegotiate 86 [] :: post) =
      pre.map serialize ++
        serialize (TelnetFrame.subnegotiate 86 []) ::
          compressChain compress init post := by
  induction pre with
  | nil =>
    simp only [List.nil_append, List.map_nil]
    exact congrArg (List.cons (serialize (TelnetFrame.subnegotiate 86 [])))
      (output_stream_outs_compressing compress init post init)
  | cons f pre ih =>
    have hf : isMccp2Sub f = false := h f (List.mem_cons_self f pre)
    have hrest : ∀ g ∈ pre, isMccp2Sub g = false :=
      fun g hg => h g (List.mem_cons_of_mem f hg)
    simp only [List.cons_append, List.map_cons, output_stream_outs,
      output_stream_run, output_step, hf, if_false]
    exact congrArg _ (ih hrest)

theorem C8_mccp2_boundary_witness :
    output_stream_outs (fun c d => (c + 1, c :: d)) 0 ⟨false, none⟩
        ([TelnetFrame.data [104]] ++ TelnetFrame.subnegotiate 86 [] ::
          [TelnetFrame.data [105], TelnetFrame.negotiate 253 1]) =
      [[104], [255, 250, 86, 255, 240], [0, 105], [1, 255, 253, 1]] := by
  have hb := C8_mccp2_boundary (fun c d => (c + 1, c :: d)) 0
    [TelnetFrame.data [104]]
    [TelnetFrame.data [105], TelnetFrame.negotiate 253 1]
    (by decide)
  rw [hb]
  rfl

/-- Claim C9: the claim says that an MTTS reply whose payload equals
the immediately previous reply makes the handler set its completion
signal without advancing the probing stage or issuing another probe.
The source never assigns `self.last_received` after construction, so
the comparison is always against the empty string: feeding the same
nonempty IS payload twice (0x00 then "A") from the state right after
the first probe leaves the completion signal unset, advances
`number_requests` to 3, and issues a probe for each reply. -/
theorem C9_repeated_reply_not_detected :
    mtts_run mttsAfterFirstProbe [[0, 65], [0, 65]] =
      ({ number_requests := 3, last_received := [], negotiation := false },
        2) := by
  decide

/-- Claim C10: the stage-3 MTTS reply "MTTS 2048" makes
`handle_standard` pass the key "encryption" — and bitmask 64 the key
"screenreader" — to `change_capabilities`; neither is a declared field
of the slots-based `MudClientCapabilities` record, so the `setattr`
raises `AttributeError` (modelled as `Except.error`): the error branch
is reachable. -/
theorem C10_attribute_error_reachable :
    handle_standard "MTTS 2048" 0 = [("encryption", CapValue.b true)] ∧
    handle_standard "MTTS 64" 0 = [("screenreader", CapValue.b true)] ∧
    "encryption" ∉ capabilityFields ∧
    "screenreader" ∉ capabilityFields ∧
    change_capabilities (handle_standard "MTTS 2048" 0) =
      Except.error "encryption" ∧
    change_capabilities (handle_standard "MTTS 64" 0) =
      Except.error "screenreader" :=
  ⟨by decide, by decide, by decide, by decide, by rfl, by rfl⟩

end Mudtelnet
